import Mathlib

/-!
Shallow embedding of the metadata-extraction core of the lora_viewer
repository (src/metadata.rs together with the caller metadata_record in
src/app.rs), and proofs of the frozen claims about it.

Modelling conventions:
- Rust byte buffers and files are `List Nat` (each entry a byte value).
- Rust `usize` arithmetic is `Nat` with explicit `2 ^ 64` bounds exactly where
  the source checks them (`checked_add`); the platform is 64-bit.
- Tensor names are `List Char`; Rust's `str::starts_with` / `ends_with` are
  `List.isPrefixOf` / `List.isSuffixOf`, and Rust's lexicographic `String`
  order (UTF-8 byte order, which coincides with code-point order) is `nameLe`.
- `f64` tag weights are modelled as `ℚ`; every weight appearing in the claims
  is a small integer, on which IEEE double arithmetic is exact.
- Fallible Rust code returns `Outcome`: `ok` for `Ok`, `err` for a returned
  `Err`, and `panicked` for a Rust panic (an `unwrap` on a failed operation),
  which is NOT absorbed by `Result`-level handling such as `.ok()`.
- The two external safetensors entry points (`SafeTensors::read_metadata` and
  `SafeTensors::deserialize`) and the external tinyjson string parser are
  third-party library calls, not code of this repository; they are passed to
  the embedded functions as explicit result values / oracle functions, so that
  the repository's own control flow around them is modelled exactly.
-/

namespace LoraViewer

/-- Outcome of a fallible Rust computation: a value, a returned error, or a
panic (which propagates past `Result`-level error handling). -/
inductive Outcome (α : Type) where
  | ok (val : α)
  | err
  | panicked
deriving DecidableEq

/-- Rust `Result::ok().unwrap_or_default()` on an outcome that is already
known not to be a panic: an error is absorbed into the default value. -/
def Outcome.okOr {α : Type} (o : Outcome α) (d : α) : α :=
  match o with
  | .ok v => v
  | _ => d

/-- Little-endian decoding of the first 8 bytes of a buffer, as in
`u64::from_le_bytes` applied to the first 8 bytes (metadata.rs line 154). -/
def leU64 (bs : List Nat) : Nat :=
  (bs.take 8).foldr (fun b acc => b + 256 * acc) 0

/-- Error kinds produced by `read_header` (metadata.rs lines 148-164):
`ioError` covers file I/O failures (in particular `read_exact` hitting
end-of-file), `invalidHeader` is the `anyhow!("Invalid header size")` produced
when `checked_add` overflows, `headerTooLarge` is the failure of
`ensure!(size < 100 * 1048576)`. -/
inductive HeaderError where
  | ioError
  | invalidHeader
  | headerTooLarge
deriving DecidableEq

/-- Embedding of `read_header` (metadata.rs lines 148-164) on a file given as
its full byte list. `model_size` is the file length; the first 8 bytes decode
little-endian to the declared header length; `checked_add 8` fails iff the sum
reaches `2 ^ 64` (64-bit `usize`); the 100 MiB bound is checked next; then
`read_exact` of `H + 8` bytes fails iff the file is shorter than that; the
returned buffer is the first `H + 8` bytes padded with zeros to `model_size`.
Values of real bytes are below 256, so the decoded length is below `2 ^ 64`;
the definition itself does not need that bound. -/
def read_header (file : List Nat) : Except HeaderError (List Nat) :=
  let model_size := file.length
  if file.length < 8 then .error .ioError
  else
    let H := leU64 (file.take 8)
    if 2 ^ 64 ≤ H + 8 then .error .invalidHeader
    else if 100 * 1048576 ≤ H + 8 then .error .headerTooLarge
    else if model_size < H + 8 then .error .ioError
    else .ok (file.take (H + 8) ++ List.replicate (model_size - (H + 8)) 0)

/-- Network targets (metadata.rs lines 13-18). -/
inductive NetworkType where
  | Unet
  | SdClip
  | SdxlClip
  | Transformer
deriving DecidableEq

/-- Adapter techniques over a network target (metadata.rs lines 31-40). -/
inductive LoraType where
  | LoRA (network : NetworkType)
  | DoRA (network : NetworkType)
  | LoHa (network : NetworkType)
  | LoKr (network : NetworkType)
deriving DecidableEq

/-- The network target carried by an adapter tag. -/
def LoraType.network : LoraType → NetworkType
  | .LoRA n => n
  | .DoRA n => n
  | .LoHa n => n
  | .LoKr n => n

/-- Classification tags (metadata.rs lines 53-59). -/
inductive ModelType where
  | SdCheckpoint
  | SdxlCheckpoint
  | Lora (lora : LoraType)
  | BakedVae
  | StandaloneVae
deriving DecidableEq

/-- Rank of a network target under the derived `Ord` (declaration order). -/
def NetworkType.rank : NetworkType → Nat
  | .Unet => 0
  | .SdClip => 1
  | .SdxlClip => 2
  | .Transformer => 3

/-- Rank of an adapter tag under the derived `Ord`: variant order first, then
the contained network target. -/
def LoraType.rank : LoraType → Nat
  | .LoRA n => 0 * 4 + n.rank
  | .DoRA n => 1 * 4 + n.rank
  | .LoHa n => 2 * 4 + n.rank
  | .LoKr n => 3 * 4 + n.rank

/-- Rank of a classification tag under the derived `Ord`: variant order first,
with the `Lora` payload ordered by `LoraType.rank`. This realises the fixed
total order used by `model_types.sort()` (metadata.rs line 204). -/
def ModelType.rank : ModelType → Nat
  | .SdCheckpoint => 0
  | .SdxlCheckpoint => 1
  | .Lora l => 2 + l.rank
  | .BakedVae => 18
  | .StandaloneVae => 19

/-- Comparison realising the derived total order on tags, used by
`model_types.sort()` (metadata.rs line 204); the sort is modelled by the
stable `List.insertionSort`, matching Rust's stable sort. -/
def rankLeR (a b : ModelType) : Prop :=
  a.rank ≤ b.rank

instance : DecidableRel rankLeR := fun a b => Nat.decLe a.rank b.rank

/-- Lexicographic order on tensor names by code point, matching Rust's
`String` ordering (UTF-8 byte order agrees with code-point order), used by
`names.sort()` (metadata.rs line 179). -/
def nameLe : List Char → List Char → Bool
  | [], _ => true
  | _ :: _, [] => false
  | x :: xs, y :: ys =>
    if x.toNat < y.toNat then true
    else if y.toNat < x.toNat then false
    else nameLe xs ys

/-- Propositional form of `nameLe`, for the sort. -/
def nameLeR (a b : List Char) : Prop :=
  nameLe a b = true

instance : DecidableRel nameLeR := fun a b => instDecidableEqBool (nameLe a b) true

/-- The adapter-technique suffix classes recognised by the suffix chain of
`ModelType::from_tensor_name` (metadata.rs lines 96-110). -/
inductive SuffixKind where
  | lora
  | loha
  | lokr
  | dora
deriving DecidableEq

/-- Combine a recognised suffix class with a network target, as the suffix
chain of `from_tensor_name` does. -/
def SuffixKind.apply : SuffixKind → NetworkType → LoraType
  | .lora, n => .LoRA n
  | .loha, n => .LoHa n
  | .lokr, n => .LoKr n
  | .dora, n => .DoRA n

/-- The network-target chain of `from_tensor_name` (metadata.rs lines 83-93),
in source order: `lora_te_`, then `lora_te1_`, then `transformer.`, then
`lora_unet_`; anything else returns `None`. -/
def networkTarget (name : List Char) : Option NetworkType :=
  if "lora_te_".data.isPrefixOf name then some .SdClip
  else if "lora_te1_".data.isPrefixOf name then some .SdxlClip
  else if "transformer.".data.isPrefixOf name then some .Transformer
  else if "lora_unet_".data.isPrefixOf name then some .Unet
  else none

/-- The adapter-technique suffix chain of `from_tensor_name` (metadata.rs
lines 96-110), in source order. -/
def loraSuffix (name : List Char) : Option SuffixKind :=
  if "lora_down.weight".data.isSuffixOf name
      || "lora_up.weight".data.isSuffixOf name
      || "lora_A.weight".data.isSuffixOf name
      || "lora_B.weight".data.isSuffixOf name then some .lora
  else if "hada_w1_a".data.isSuffixOf name then some .loha
  else if "lokr_w1".data.isSuffixOf name then some .lokr
  else if "dora_scale".data.isSuffixOf name then some .dora
  else none

/-- Embedding of `ModelType::from_tensor_name` (metadata.rs lines 65-113).
The checkpoint and VAE rules fire first in source order; the remaining rules
determine a network target from the name's beginning and an adapter technique
from its end. The shape argument is present in the source signature but bound
as `_shape` there and never used. -/
def ModelType.from_tensor_name (name : List Char) (_shape : List Nat) :
    Option ModelType :=
  if "conditioner.embedders.0.".data.isPrefixOf name then some .SdxlCheckpoint
  else if "cond_stage_model.".data.isPrefixOf name then some .SdCheckpoint
  else if "encoder.".data.isPrefixOf name then some .StandaloneVae
  else if "first_stage_model.".data.isPrefixOf name then some .BakedVae
  else
    match networkTarget name with
    | none => none
    | some model =>
      match loraSuffix name with
      | none => none
      | some k => some (ModelType.Lora (k.apply model))

/-- JSON values as produced by the external tinyjson parser; numbers are
modelled as rationals (exact for the integral weights in the claims). -/
inductive Json where
  | null
  | bool (b : Bool)
  | num (q : ℚ)
  | str (s : String)
  | arr (elts : List Json)
  | obj (fields : List (String × Json))

/-- HashMap `entry(tag).and_modify(add).or_insert(w)` on an association list:
add the weight to an existing entry for the tag, else append a new entry
(metadata.rs lines 234-239). -/
def addTag (acc : List (String × ℚ)) (t : String) (w : ℚ) :
    List (String × ℚ) :=
  match acc with
  | [] => [(t, w)]
  | (t', w') :: rest =>
    if t' = t then (t', w' + w) :: rest else (t', w') :: addTag rest t w

/-- Inner loop of `tag_frequencies` over one group's tag object
(metadata.rs lines 234-239): a non-numeric weight hits
`tag.1.get::<f64>().unwrap()` and panics. -/
def addInner (acc : List (String × ℚ)) :
    List (String × Json) → Outcome (List (String × ℚ))
  | [] => .ok acc
  | (tag, v) :: rest =>
    match v with
    | .num q => addInner (addTag acc tag q) rest
    | _ => .panicked

/-- Outer loop of `tag_frequencies` over the groups (metadata.rs lines
230-240): a group whose value is not an object hits
`bail!("Unexpected json structure")`. -/
def addDirs (acc : List (String × ℚ)) :
    List (String × Json) → Outcome (List (String × ℚ))
  | [] => .ok acc
  | (_, v) :: rest =>
    match v with
    | .obj tags =>
      match addInner acc tags with
      | .ok acc' => addDirs acc' rest
      | .err => .err
      | .panicked => .panicked
    | _ => .err

/-- Stable descending comparison on accumulated weights, realising
`sort_by(|a, b| b.1.partial_cmp(&a.1).unwrap())` (metadata.rs line 242);
rational weights are totally ordered, so the `unwrap` cannot fail here. -/
def weightGe (a b : String × ℚ) : Prop :=
  b.2 ≤ a.2

instance : DecidableRel weightGe := fun a b => Rat.instDecidableLe b.2 a.2

/-- Aggregation of an already-parsed tag-frequency value (metadata.rs lines
226-243). A failed parse (`None` from the oracle) hits
`frequencies.parse().unwrap()` and panics; a non-object top level hits
`bail!`; otherwise the groups are folded and the result sorted by weight
descending. -/
def tagFrequenciesOfJson (parsed : Option Json) :
    Outcome (List (String × ℚ)) :=
  match parsed with
  | none => .panicked
  | some (Json.obj dirs) =>
    match addDirs [] dirs with
    | .ok all_tags => .ok (all_tags.insertionSort weightGe)
    | .err => .err
    | .panicked => .panicked
  | some _ => .err

/-- Embedding of `tag_frequencies` (metadata.rs lines 221-244). The metadata
table is an association list; a missing `ss_tag_frequency` key hits
`ok_or(anyhow!(...))?` and returns an error. `parse` is the external tinyjson
string parser, passed as an oracle. -/
def tag_frequencies (parse : String → Option Json)
    (metadata : List (String × String)) : Outcome (List (String × ℚ)) :=
  match metadata.lookup "ss_tag_frequency" with
  | none => .err
  | some s => tagFrequenciesOfJson (parse s)

/-- The record assembled by the builder (metadata.rs lines 127-134). -/
structure LoraData where
  raw_metadata : List (String × String)
  tag_frequencies : List (String × ℚ)
  base_model : Option String
  tensors : List (List Char × List Nat)
  model_types : List ModelType
deriving DecidableEq

/-- Rust `#[derive(Default)]` for `LoraData`: every field empty. -/
def LoraData.default : LoraData :=
  { raw_metadata := []
    tag_frequencies := []
    base_model := none
    tensors := []
    model_types := [] }

/-- Raw tag collection of the classifier (metadata.rs lines 186-189): map
`from_tensor_name` over the catalog and collect into a set, modelled as a
duplicate-free list. -/
def rawTags (tensors : List (List Char × List Nat)) : List ModelType :=
  (tensors.filterMap fun p => ModelType.from_tensor_name p.1 p.2).dedup

/-- Network targets with a detected DoRA tag (metadata.rs lines 193-199). -/
def doraTargets (tags : List ModelType) : List NetworkType :=
  tags.filterMap fun t =>
    match t with
    | .Lora (.DoRA n) => some n
    | _ => none

/-- Superset removal (metadata.rs lines 200-202): for every detected DoRA
target, remove the plain LoRA tag for that same target from the set. -/
def prunedTags (tensors : List (List Char × List Nat)) : List ModelType :=
  (rawTags tensors).filter fun t =>
    match t with
    | .Lora (.LoRA n) => !(doraTargets (rawTags tensors)).contains n
    | _ => true

/-- Final classification (metadata.rs lines 186-204): raw tags, superset
removal, then sorting by the derived total order. The hash-set intermediate
has unspecified iteration order, but the final sorted duplicate-free sequence
is uniquely determined by the set of tags, so this function is its faithful
deterministic description. -/
def classify (tensors : List (List Char × List Nat)) : List ModelType :=
  (prunedTags tensors).insertionSort rankLeR

/-- Per-name shape lookup loop (metadata.rs lines 180-183):
`names.iter().map(|name| Ok((name, tensors.tensor(name)?.shape()))).collect()`
over a `Result`, short-circuiting to `Err` when a name is absent. -/
def collectTensors (tensorMap : List (List Char × List Nat)) :
    List (List Char) → Option (List (List Char × List Nat))
  | [] => some []
  | n :: rest =>
    match tensorMap.lookup n with
    | none => none
    | some s =>
      match collectTensors tensorMap rest with
      | none => none
      | some l => some ((n, s) :: l)

/-- Embedding of `LoraData::from_buffer` (metadata.rs lines 167-218).
The two external safetensors calls are passed as their result values:
`readMetadataResult` stands for `SafeTensors::read_metadata(buffer)` reduced
to the optional metadata table, `deserializeResult` for
`SafeTensors::deserialize(buffer)` reduced to the name-to-shape table.
Both are propagated with `?` in the source, so either error aborts the whole
function with `Err`. The tag-frequency step runs in between: its `Err` is
absorbed by `.ok().unwrap_or_default()`, but a panic inside it propagates. -/
def from_buffer (parse : String → Option Json)
    (readMetadataResult : Except Unit (Option (List (String × String))))
    (deserializeResult : Except Unit (List (List Char × List Nat))) :
    Outcome LoraData :=
  match readMetadataResult with
  | .error _ => .err
  | .ok metaOpt =>
    let metadata := metaOpt.getD []
    match tag_frequencies parse metadata with
    | .panicked => .panicked
    | tfr =>
      match deserializeResult with
      | .error _ => .err
      | .ok tensorMap =>
        let names := (tensorMap.map Prod.fst).insertionSort nameLeR
        let tensors := (collectTensors tensorMap names).getD []
        .ok
          { raw_metadata := metadata
            tag_frequencies := tfr.okOr []
            base_model := metadata.lookup "ss_sd_model_name"
            tensors := tensors
            model_types := classify tensors }

/-- Embedding of `metadata_record` (app.rs lines 24-36): a failed
`read_header` yields the default record; otherwise `from_buffer` runs and its
`Err` is absorbed by `unwrap_or_default()` — but a panic still propagates. -/
def metadata_record (headerResult : Except HeaderError (List Nat))
    (parse : String → Option Json)
    (readMetadataResult : Except Unit (Option (List (String × String))))
    (deserializeResult : Except Unit (List (List Char × List Nat))) :
    Outcome LoraData :=
  match headerResult with
  | .error _ => .ok LoraData.default
  | .ok _ =>
    match from_buffer parse readMetadataResult deserializeResult with
    | .ok d => .ok d
    | .err => .ok LoraData.default
    | .panicked => .panicked

/-! Helper lemmas shared by the claim theorems. -/

/-- Two incomparable string literals cannot both begin the same name: the
early-return rule chain of `from_tensor_name` makes its cases mutually
exclusive. -/
theorem isPrefixOf_excl {p q n : List Char} (hpn : p.isPrefixOf n = true)
    (hpq : p.isPrefixOf q = false) (hqp : q.isPrefixOf p = false) :
    q.isPrefixOf n = false := by
  induction p generalizing q n with
  | nil => simp [List.isPrefixOf] at hpq
  | cons a as ih =>
    cases q with
    | nil => simp [List.isPrefixOf] at hqp
    | cons b bs =>
      cases n with
      | nil => simp [List.isPrefixOf] at hpn
      | cons c cs =>
        simp only [List.isPrefixOf, Bool.and_eq_true, beq_iff_eq,
          Bool.and_eq_false_iff, beq_eq_false_iff_ne, ne_eq] at hpn hpq hqp ⊢
        by_cases hbc : b = c
        · subst hbc
          rcases hpn with ⟨hac, hcs⟩
          subst hac
          rcases hpq with h | h
          · exact absurd rfl h
          · rcases hqp with h' | h'
            · exact absurd rfl h'
            · exact Or.inr (ih hcs h h')
        · exact Or.inl hbc

/-- Unfolding of the lexicographic name order on cons cells. -/
theorem nameLe_cons {x y : Char} {xs ys : List Char} :
    nameLe (x :: xs) (y :: ys) = true ↔
      x.toNat < y.toNat ∨ (x.toNat = y.toNat ∧ nameLe xs ys = true) := by
  simp only [nameLe]
  split_ifs with h1 h2
  · simp [h1]
  · simp only [false_iff]
    rintro (h | ⟨he, _⟩) <;> omega
  · have he : x.toNat = y.toNat := by omega
    simp [he, Nat.lt_irrefl]

/-- The lexicographic name order is total. -/
theorem nameLe_total : ∀ a b : List Char, nameLe a b = true ∨ nameLe b a = true
  | [], _ => Or.inl rfl
  | _ :: _, [] => Or.inr rfl
  | x :: xs, y :: ys => by
    rcases Nat.lt_trichotomy x.toNat y.toNat with h | h | h
    · exact Or.inl (nameLe_cons.mpr (Or.inl h))
    · rcases nameLe_total xs ys with h' | h'
      · exact Or.inl (nameLe_cons.mpr (Or.inr ⟨h, h'⟩))
      · exact Or.inr (nameLe_cons.mpr (Or.inr ⟨h.symm, h'⟩))
    · exact Or.inr (nameLe_cons.mpr (Or.inl h))

/-- The lexicographic name order is transitive. -/
theorem nameLe_trans : ∀ a b c : List Char,
    nameLe a b = true → nameLe b c = true → nameLe a c = true
  | [], _, _ => fun _ _ => rfl
  | _ :: _, [], _ => fun h _ => by simp [nameLe] at h
  | _ :: _, _ :: _, [] => fun _ h => by simp [nameLe] at h
  | x :: xs, y :: ys, z :: zs => fun hab hbc => by
    rcases nameLe_cons.mp hab with h | ⟨he, hr⟩ <;>
      rcases nameLe_cons.mp hbc with h' | ⟨he', hr'⟩
    · exact nameLe_cons.mpr (Or.inl (by omega))
    · exact nameLe_cons.mpr (Or.inl (by omega))
    · exact nameLe_cons.mpr (Or.inl (by omega))
    · exact nameLe_cons.mpr (Or.inr ⟨by omega, nameLe_trans xs ys zs hr hr'⟩)

instance : IsTotal (List Char) nameLeR := ⟨nameLe_total⟩

instance : IsTrans (List Char) nameLeR := ⟨nameLe_trans⟩

instance : IsTotal ModelType rankLeR := ⟨fun a b => Nat.le_total a.rank b.rank⟩

instance : IsTrans ModelType rankLeR := ⟨fun _ _ _ => Nat.le_trans⟩

/-- Combining a recognised suffix class with a network target yields an
adapter tag aimed at exactly that target. -/
theorem SuffixKind.network_apply (k : SuffixKind) (n : NetworkType) :
    (k.apply n).network = n := by
  cases k <;> rfl

/-- The collected shape-lookup list has exactly the requested names as its
first components, in order. -/
theorem collectTensors_map_fst {tensorMap : List (List Char × List Nat)} :
    ∀ {ns : List (List Char)} {l : List (List Char × List Nat)},
      collectTensors tensorMap ns = some l → l.map Prod.fst = ns
  | [], l => by intro h; simp [collectTensors] at h; simp [← h]
  | n :: rest, l => by
    intro h
    simp only [collectTensors] at h
    cases hl : tensorMap.lookup n with
    | none => rw [hl] at h; exact absurd h (by simp)
    | some s =>
      rw [hl] at h
      cases hc : collectTensors tensorMap rest with
      | none => rw [hc] at h; exact absurd h (by simp)
      | some l' =>
        rw [hc] at h
        cases h
        simp [collectTensors_map_fst hc]

/-- Membership in the final classification is membership in the pruned set. -/
theorem mem_classify {tensors : List (List Char × List Nat)} {t : ModelType} :
    t ∈ classify tensors ↔ t ∈ prunedTags tensors :=
  List.mem_insertionSort rankLeR

/-- A DoRA tag always survives the superset-removal filter. -/
theorem dora_mem_classify {tensors : List (List Char × List Nat)}
    {n : NetworkType} :
    ModelType.Lora (LoraType.DoRA n) ∈ classify tensors ↔
      ModelType.Lora (LoraType.DoRA n) ∈ rawTags tensors := by
  rw [mem_classify, prunedTags, List.mem_filter]
  simp

/-- A network target is a detected DoRA target exactly when the DoRA tag for
it is among the raw tags. -/
theorem mem_doraTargets {tags : List ModelType} {n : NetworkType} :
    n ∈ doraTargets tags ↔ ModelType.Lora (LoraType.DoRA n) ∈ tags := by
  rw [doraTargets, List.mem_filterMap]
  constructor
  · rintro ⟨t, ht, hmatch⟩
    match t with
    | .SdCheckpoint | .SdxlCheckpoint | .BakedVae | .StandaloneVae =>
      simp at hmatch
    | .Lora (.LoRA m) | .Lora (.LoHa m) | .Lora (.LoKr m) => simp at hmatch
    | .Lora (.DoRA m) =>
      simp only [Option.some.injEq] at hmatch
      rwa [hmatch] at ht
  · intro ht
    exact ⟨ModelType.Lora (LoraType.DoRA n), ht, rfl⟩

/-! Claim theorems. -/

/-- Unfolding of `read_header` with its let bindings reduced. -/
theorem read_header_eq (file : List Nat) :
    read_header file =
      if file.length < 8 then Except.error HeaderError.ioError
      else if 2 ^ 64 ≤ leU64 (file.take 8) + 8 then
        Except.error HeaderError.invalidHeader
      else if 100 * 1048576 ≤ leU64 (file.take 8) + 8 then
        Except.error HeaderError.headerTooLarge
      else if file.length < leU64 (file.take 8) + 8 then
        Except.error HeaderError.ioError
      else Except.ok (file.take (leU64 (file.take 8) + 8) ++
          List.replicate (file.length - (leU64 (file.take 8) + 8)) 0) := rfl

/-- C4: for every file of `L` total bytes whose first 8 bytes decode
little-endian to a header length `H`, when `read_header` returns a buffer,
that buffer has length exactly `L`, its bytes in `[0, H + 8)` equal the
source file's bytes, and its bytes in `[H + 8, L)` are all zero. -/
theorem claim_C4_header_reader_contents (file buf : List Nat)
    (h : read_header file = Except.ok buf) :
    buf.length = file.length
    ∧ buf.take (leU64 (file.take 8) + 8) = file.take (leU64 (file.take 8) + 8)
    ∧ buf.drop (leU64 (file.take 8) + 8) =
        List.replicate (file.length - (leU64 (file.take 8) + 8)) 0 := by
  rw [read_header_eq] at h
  split_ifs at h with h1 h2 h3 h4
  cases h
  have hT : leU64 (file.take 8) + 8 ≤ file.length := by omega
  have hlen : (file.take (leU64 (file.take 8) + 8)).length =
      leU64 (file.take 8) + 8 := by
    simp [List.length_take]; omega
  refine ⟨?_, ?_, ?_⟩
  · simp [List.length_take, List.length_replicate]; omega
  · rw [List.take_append_eq_append_take, hlen]
    simp [List.take_take]
  · rw [List.drop_append_eq_append_drop, hlen]
    simp

/-- C4 witness: a concrete 11-byte file with declared header length 0; the
returned buffer is the 8 header bytes followed by 3 zeros. -/
theorem claim_C4_witness :
    ([0, 0, 0, 0, 0, 0, 0, 0, 0, 0, 0] : List Nat).length =
        ([0, 0, 0, 0, 0, 0, 0, 0, 1, 2, 3] : List Nat).length
    ∧ ([0, 0, 0, 0, 0, 0, 0, 0, 0, 0, 0] : List Nat).take
          (leU64 (([0, 0, 0, 0, 0, 0, 0, 0, 1, 2, 3] : List Nat).take 8) + 8) =
        ([0, 0, 0, 0, 0, 0, 0, 0, 1, 2, 3] : List Nat).take
          (leU64 (([0, 0, 0, 0, 0, 0, 0, 0, 1, 2, 3] : List Nat).take 8) + 8)
    ∧ ([0, 0, 0, 0, 0, 0, 0, 0, 0, 0, 0] : List Nat).drop
          (leU64 (([0, 0, 0, 0, 0, 0, 0, 0, 1, 2, 3] : List Nat).take 8) + 8) =
        List.replicate
          (([0, 0, 0, 0, 0, 0, 0, 0, 1, 2, 3] : List Nat).length -
            (leU64 (([0, 0, 0, 0, 0, 0, 0, 0, 1, 2, 3] : List Nat).take 8) + 8)) 0 :=
  claim_C4_header_reader_contents [0, 0, 0, 0, 0, 0, 0, 0, 1, 2, 3]
    [0, 0, 0, 0, 0, 0, 0, 0, 0, 0, 0] rfl

/-- C8: with at least 8 bytes present, a decoded header length whose total
overflows the 64-bit size type fails with the invalid-header error; a
non-overflowing total at or above 100 MiB fails with the header-too-large
error; a total below 100 MiB passes both checks. -/
theorem claim_C8_header_size_checks (file : List Nat) (h8 : 8 ≤ file.length) :
    (2 ^ 64 ≤ leU64 (file.take 8) + 8 →
      read_header file = Except.error HeaderError.invalidHeader)
    ∧ (leU64 (file.take 8) + 8 < 2 ^ 64 → 100 * 2 ^ 20 ≤ leU64 (file.take 8) + 8 →
      read_header file = Except.error HeaderError.headerTooLarge)
    ∧ (leU64 (file.take 8) + 8 < 100 * 2 ^ 20 →
      read_header file ≠ Except.error HeaderError.headerTooLarge
      ∧ read_header file ≠ Except.error HeaderError.invalidHeader) := by
  rw [read_header_eq]
  refine ⟨?_, ?_, ?_⟩
  · intro hov
    split_ifs with h1 hA hB hC <;> first | rfl | omega
  · intro hnov hbig
    split_ifs with h1 h2 h3 h4 <;> first | rfl | omega
  · intro hsmall
    split_ifs with h1 h2 h3 h4 <;>
      refine ⟨?_, ?_⟩ <;> first | omega | (intro hcon; cases hcon)

/-- C8 witness: an all-0xFF length prefix overflows (invalid header); a
prefix decoding to `100 * 2 ^ 20 - 8` is rejected as too large; a prefix
decoding to 1000 passes both size checks. -/
theorem claim_C8_witness :
    read_header [255, 255, 255, 255, 255, 255, 255, 255] =
        Except.error HeaderError.invalidHeader
    ∧ read_header [248, 255, 63, 6, 0, 0, 0, 0] =
        Except.error HeaderError.headerTooLarge
    ∧ (read_header [232, 3, 0, 0, 0, 0, 0, 0] ≠
        Except.error HeaderError.headerTooLarge
      ∧ read_header [232, 3, 0, 0, 0, 0, 0, 0] ≠
        Except.error HeaderError.invalidHeader) :=
  ⟨(claim_C8_header_size_checks [255, 255, 255, 255, 255, 255, 255, 255]
      (by decide)).1 (by decide),
    (claim_C8_header_size_checks [248, 255, 63, 6, 0, 0, 0, 0]
      (by decide)).2.1 (by decide) (by decide),
    (claim_C8_header_size_checks [232, 3, 0, 0, 0, 0, 0, 0]
      (by decide)).2.2 (by decide)⟩

/-- C10: when the declared header passes the size checks but does not fit in
the file (`H + 8 > L`), the exact read of `H + 8` bytes hits end-of-file and
`read_header` returns an I/O error, not a padded or truncated buffer. -/
theorem claim_C10_header_must_fit (file : List Nat) (h8 : 8 ≤ file.length)
    (hbound : leU64 (file.take 8) + 8 < 100 * 2 ^ 20)
    (hlen : file.length < leU64 (file.take 8) + 8) :
    read_header file = Except.error HeaderError.ioError := by
  rw [read_header_eq]
  split_ifs with h1 h2 h3 hEOF <;> first | rfl | omega

/-- C10 witness: an 8-byte file declaring a 1000-byte header errors out. -/
theorem claim_C10_witness :
    read_header [232, 3, 0, 0, 0, 0, 0, 0] = Except.error HeaderError.ioError :=
  claim_C10_header_must_fit [232, 3, 0, 0, 0, 0, 0, 0] (by decide) (by decide)
    (by decide)

/-- C2: a tensor name beginning with the `lora_te1_` marker and carrying a
recognised adapter-technique suffix is classified as an adapter for the
SDXL Clip network target, for any shape; a name beginning with the
`lora_te_` marker is classified for the SD Clip target, and the two targets
are distinct. -/
theorem claim_C2_te1_target (name : List Char) (shape : List Nat)
    (k : SuffixKind) (hname : "lora_te1_".data.isPrefixOf name = true)
    (hsuf : loraSuffix name = some k) :
    ModelType.from_tensor_name name shape =
        some (ModelType.Lora (k.apply NetworkType.SdxlClip))
    ∧ (k.apply NetworkType.SdxlClip).network = NetworkType.SdxlClip
    ∧ (∀ (name' : List Char) (shape' : List Nat) (k' : SuffixKind),
        "lora_te_".data.isPrefixOf name' = true → loraSuffix name' = some k' →
        ModelType.from_tensor_name name' shape' =
            some (ModelType.Lora (k'.apply NetworkType.SdClip))
        ∧ (k'.apply NetworkType.SdClip).network = NetworkType.SdClip)
    ∧ NetworkType.SdClip ≠ NetworkType.SdxlClip := by
  refine ⟨?_, SuffixKind.network_apply k _, ?_, by decide⟩
  · have e1 := isPrefixOf_excl hname
      (p := "lora_te1_".data) (q := "conditioner.embedders.0.".data)
      (by decide) (by decide)
    have e2 := isPrefixOf_excl hname
      (p := "lora_te1_".data) (q := "cond_stage_model.".data)
      (by decide) (by decide)
    have e3 := isPrefixOf_excl hname
      (p := "lora_te1_".data) (q := "encoder.".data) (by decide) (by decide)
    have e4 := isPrefixOf_excl hname
      (p := "lora_te1_".data) (q := "first_stage_model.".data)
      (by decide) (by decide)
    have e5 := isPrefixOf_excl hname
      (p := "lora_te1_".data) (q := "lora_te_".data) (by decide) (by decide)
    rw [ModelType.from_tensor_name, e1, e2, e3, e4, networkTarget, e5, hname,
      hsuf]
    rfl
  · intro name' shape' k' hname' hsuf'
    refine ⟨?_, SuffixKind.network_apply k' _⟩
    have e1 := isPrefixOf_excl hname'
      (p := "lora_te_".data) (q := "conditioner.embedders.0.".data)
      (by decide) (by decide)
    have e2 := isPrefixOf_excl hname'
      (p := "lora_te_".data) (q := "cond_stage_model.".data)
      (by decide) (by decide)
    have e3 := isPrefixOf_excl hname'
      (p := "lora_te_".data) (q := "encoder.".data) (by decide) (by decide)
    have e4 := isPrefixOf_excl hname'
      (p := "lora_te_".data) (q := "first_stage_model.".data)
      (by decide) (by decide)
    rw [ModelType.from_tensor_name, e1, e2, e3, e4, networkTarget, hname',
      hsuf']
    rfl

/-- C2 witness: a concrete SDXL text-encoder adapter tensor name. -/
theorem claim_C2_witness :
    ModelType.from_tensor_name "lora_te1_text_model.lora_down.weight".data
        [32, 768] =
      some (ModelType.Lora (SuffixKind.lora.apply NetworkType.SdxlClip))
    ∧ (SuffixKind.lora.apply NetworkType.SdxlClip).network =
        NetworkType.SdxlClip :=
  ⟨(claim_C2_te1_target "lora_te1_text_model.lora_down.weight".data [32, 768]
      SuffixKind.lora (by decide) (by decide)).1,
    (claim_C2_te1_target "lora_te1_text_model.lora_down.weight".data [32, 768]
      SuffixKind.lora (by decide) (by decide)).2.1⟩

/-- C6 counterexample: contrary to the claim, there is no tensor name and
pair of shapes on which the classifier disagrees — the shape parameter is
ignored by every rule. -/
theorem claim_C6_counterexample :
    ¬ ∃ (name : List Char) (s1 s2 : List Nat),
        ModelType.from_tensor_name name s1 ≠
          ModelType.from_tensor_name name s2 := by
  rintro ⟨n, s1, s2, h⟩
  exact h rfl

/-- C6 amended: classification is a function of the tensor name alone; the
shape argument is accepted (bound as `_shape` in the source) but inspected by
no rule, so any two shapes give the same classification. -/
theorem claim_C6_shape_ignored (name : List Char) (s1 s2 : List Nat) :
    ModelType.from_tensor_name name s1 = ModelType.from_tensor_name name s2 :=
  rfl

/-- C5: the final classification obeys the superset-removal invariant — when
the DoRA tag for a network target is present, the plain LoRA tag for the same
target is absent; and every tag that is not a plain LoRA tag for a
DoRA-detected target is in the final classification exactly when it is among
the raw tags. -/
theorem claim_C5_superset_removal (tensors : List (List Char × List Nat))
    (T : NetworkType)
    (hdora : ModelType.Lora (LoraType.DoRA T) ∈ classify tensors) :
    ModelType.Lora (LoraType.LoRA T) ∉ classify tensors
    ∧ ∀ t : ModelType,
        (∀ n : NetworkType, t = ModelType.Lora (LoraType.LoRA n) →
          ModelType.Lora (LoraType.DoRA n) ∉ classify tensors) →
        (t ∈ classify tensors ↔ t ∈ rawTags tensors) := by
  have hdoraRaw : ModelType.Lora (LoraType.DoRA T) ∈ rawTags tensors :=
    dora_mem_classify.mp hdora
  have hT : T ∈ doraTargets (rawTags tensors) := mem_doraTargets.mpr hdoraRaw
  constructor
  · intro hlora
    have hp := mem_classify.mp hlora
    rw [prunedTags, List.mem_filter] at hp
    have hguard := hp.2
    simp only [Bool.not_eq_true'] at hguard
    have hc : List.elem T (doraTargets (rawTags tensors)) = false := hguard
    rw [List.elem_iff.mpr hT] at hc
    cases hc
  · intro t hguard
    rw [mem_classify, prunedTags, List.mem_filter]
    constructor
    · exact fun hp => hp.1
    · intro hraw
      refine ⟨hraw, ?_⟩
      match t with
      | .SdCheckpoint | .SdxlCheckpoint | .BakedVae | .StandaloneVae => rfl
      | .Lora (.DoRA m) | .Lora (.LoHa m) | .Lora (.LoKr m) => rfl
      | .Lora (.LoRA m) =>
        have hnot : ModelType.Lora (LoraType.DoRA m) ∉ classify tensors :=
          hguard m rfl
        rw [dora_mem_classify, ← mem_doraTargets] at hnot
        have hc : List.elem m (doraTargets (rawTags tensors)) = false := by
          rw [← Bool.not_eq_true]
          intro he
          exact hnot (List.elem_iff.mp he)
        simp only [Bool.not_eq_true']
        exact hc

/-- C5 witness: a tensor list producing both a UNet LoRA tag and a UNet DoRA
tag; the final set keeps only the DoRA tag, and the DoRA tag itself is
unaffected by the removal. -/
theorem claim_C5_witness :
    ModelType.Lora (LoraType.LoRA NetworkType.Unet) ∉
        classify [("lora_unet_a.lora_down.weight".data, [4, 320]),
          ("lora_unet_b.dora_scale".data, [320])]
    ∧ (ModelType.Lora (LoraType.DoRA NetworkType.Unet) ∈
          classify [("lora_unet_a.lora_down.weight".data, [4, 320]),
            ("lora_unet_b.dora_scale".data, [320])] ↔
        ModelType.Lora (LoraType.DoRA NetworkType.Unet) ∈
          rawTags [("lora_unet_a.lora_down.weight".data, [4, 320]),
            ("lora_unet_b.dora_scale".data, [320])]) :=
  ⟨(claim_C5_superset_removal _ NetworkType.Unet (by decide)).1,
    (claim_C5_superset_removal _ NetworkType.Unet (by decide)).2
      (ModelType.Lora (LoraType.DoRA NetworkType.Unet))
      (fun n h => ModelType.noConfusion h
        (fun h2 => LoraType.noConfusion h2))⟩

/-- C1 counterexample: the builder is not total — with a successfully parsed
(empty) metadata table, a tensor-deserialization failure is propagated out of
`from_buffer` as a returned error instead of being absorbed into an empty
tensor catalog. This corresponds to a byte buffer whose header passes
`read_metadata` but fails the stricter full `deserialize` validation. -/
theorem claim_C1_counterexample :
    from_buffer (fun _ => none) (Except.ok none) (Except.error ()) =
      Outcome.err := rfl

/-- C1 amended: `from_buffer` returns an error exactly when container-format
header validation fails or tensor deserialization fails (with the
tag-frequency step not panicking first); only tag-frequency soft failures are
absorbed inside it. Totality holds one level up: the app-layer
`metadata_record` never returns an error, and a failed header read is
absorbed into the all-empty default record. -/
theorem claim_C1_error_propagation (parse : String → Option Json)
    (rm : Except Unit (Option (List (String × String))))
    (ds : Except Unit (List (List Char × List Nat))) :
    (from_buffer parse rm ds = Outcome.err ↔
      rm = Except.error () ∨
        ∃ m, rm = Except.ok m ∧
          tag_frequencies parse (m.getD []) ≠ Outcome.panicked ∧
          ds = Except.error ())
    ∧ (∀ hdr : Except HeaderError (List Nat),
        metadata_record hdr parse rm ds ≠ Outcome.err)
    ∧ metadata_record (Except.error HeaderError.ioError) parse rm ds =
        Outcome.ok LoraData.default := by
  refine ⟨?_, ?_, rfl⟩
  · cases rm with
    | error e =>
      cases e
      simp [from_buffer]
    | ok m =>
      cases htf : tag_frequencies parse (m.getD []) with
      | panicked => simp [from_buffer, htf]
      | ok l =>
        cases ds with
        | error e =>
          cases e
          simp [from_buffer, htf]
        | ok tm => simp [from_buffer, htf]
      | err =>
        cases ds with
        | error e =>
          cases e
          simp [from_buffer, htf]
        | ok tm => simp [from_buffer, htf]
  · intro hdr
    cases hdr with
    | error e => simp [metadata_record]
    | ok buf =>
      cases hfb : from_buffer parse rm ds with
      | ok d => simp [metadata_record, hfb]
      | err => simp [metadata_record, hfb]
      | panicked => simp [metadata_record, hfb]

/-- C1 witness: at concrete inputs, the app-layer record builder does not
return an error, and a failed header read yields the default record. -/
theorem claim_C1_witness :
    metadata_record (Except.ok []) (fun _ => none) (Except.ok none)
        (Except.error ()) ≠ Outcome.err
    ∧ metadata_record (Except.error HeaderError.ioError) (fun _ => none)
        (Except.ok none) (Except.error ()) = Outcome.ok LoraData.default :=
  ⟨(claim_C1_error_propagation (fun _ => none) (Except.ok none)
      (Except.error ())).2.1 (Except.ok []),
    (claim_C1_error_propagation (fun _ => none) (Except.ok none)
      (Except.error ())).2.2⟩

/-- C3 (bug evidence): a metadata table whose tag-frequency value is a string
the JSON parser rejects makes `tag_frequencies` panic (the `unwrap` on
`parse`), the panic escapes `from_buffer` past the `.ok()` absorption, and an
inner weight that is not a number panics likewise (the `unwrap` on
`get::<f64>()`) — instead of the empty sequence the claim promises. -/
theorem claim_C3_malformed_json_panics :
    tag_frequencies (fun _ => none) [("ss_tag_frequency", "not json")] =
      Outcome.panicked
    ∧ from_buffer (fun _ => none)
        (Except.ok (some [("ss_tag_frequency", "not json")]))
        (Except.ok []) = Outcome.panicked
    ∧ tagFrequenciesOfJson
        (some (Json.obj [("a", Json.obj [("x", Json.str "oops")])])) =
      Outcome.panicked :=
  ⟨rfl, rfl, rfl⟩

/-- C7: with the two groups a ↦ (x ↦ 1) and b ↦ (x ↦ 2, y ↦ 5) under the
tag-frequency key, the aggregator sums weights per tag across groups and
sorts descending: exactly y ↦ 5 before x ↦ 3, and nothing else. The oracle
returns the parsed form of the JSON text from the claim. -/
theorem claim_C7_aggregation_example :
    tag_frequencies
      (fun _ => some (Json.obj [("a", Json.obj [("x", Json.num 1)]),
        ("b", Json.obj [("x", Json.num 2), ("y", Json.num 5)])]))
      [("ss_tag_frequency", "frequencies")] =
      Outcome.ok [("y", 5), ("x", 3)] := by
  norm_num [tag_frequencies, tagFrequenciesOfJson, addDirs, addInner, addTag,
    List.insertionSort, List.orderedInsert, weightGe, List.lookup]

/-- The tensor catalog assembled by the builder is sorted by name. -/
theorem collected_tensors_sorted (tm : List (List Char × List Nat)) :
    List.Pairwise (fun a b => nameLeR a.1 b.1)
      ((collectTensors tm ((tm.map Prod.fst).insertionSort nameLeR)).getD []) := by
  have hnames : List.Pairwise nameLeR
      ((tm.map Prod.fst).insertionSort nameLeR) :=
    List.sorted_insertionSort nameLeR _
  cases hc : collectTensors tm ((tm.map Prod.fst).insertionSort nameLeR) with
  | none => simp
  | some l =>
    simp only [Option.getD_some]
    have hfst := collectTensors_map_fst hc
    rw [← hfst] at hnames
    exact (List.pairwise_map).mp hnames

/-- The final classification sequence is sorted under the fixed total order. -/
theorem classify_sorted (tensors : List (List Char × List Nat)) :
    List.Pairwise rankLeR (classify tensors) :=
  List.sorted_insertionSort rankLeR _

/-- The final classification sequence has no duplicate tags. -/
theorem classify_nodup (tensors : List (List Char × List Nat)) :
    (classify tensors).Nodup :=
  (List.perm_insertionSort rankLeR _).nodup_iff.mpr
    (List.Nodup.filter _ (List.nodup_dedup _))

/-- C9: every record the builder returns has its tensor catalog sorted
lexicographically by name and its classification tags sorted under the fixed
total order with no duplicates; and a second run on the same inputs yields
the identical tensors and model-types sequences. -/
theorem claim_C9_sorted_deterministic (parse : String → Option Json)
    (rm : Except Unit (Option (List (String × String))))
    (ds : Except Unit (List (List Char × List Nat)))
    (d : LoraData) (h : from_buffer parse rm ds = Outcome.ok d) :
    List.Pairwise (fun a b => nameLeR a.1 b.1) d.tensors
    ∧ List.Pairwise rankLeR d.model_types
    ∧ d.model_types.Nodup
    ∧ ∀ d' : LoraData, from_buffer parse rm ds = Outcome.ok d' →
        d'.tensors = d.tensors ∧ d'.model_types = d.model_types := by
  have huniq : ∀ d' : LoraData, from_buffer parse rm ds = Outcome.ok d' →
      d'.tensors = d.tensors ∧ d'.model_types = d.model_types := by
    intro d' h'
    have hd : d = d' := Outcome.ok.inj (h.symm.trans h')
    rw [hd]
    exact ⟨rfl, rfl⟩
  cases rm with
  | error e => exact absurd h (by simp [from_buffer])
  | ok m =>
    cases htf : tag_frequencies parse (m.getD []) with
    | panicked => exact absurd h (by simp [from_buffer, htf])
    | ok l =>
      cases ds with
      | error e => exact absurd h (by simp [from_buffer, htf])
      | ok tm =>
        simp only [from_buffer, htf] at h
        have hd := Outcome.ok.inj h
        subst hd
        exact ⟨collected_tensors_sorted tm, classify_sorted _,
          classify_nodup _, huniq⟩
    | err =>
      cases ds with
      | error e => exact absurd h (by simp [from_buffer, htf])
      | ok tm =>
        simp only [from_buffer, htf] at h
        have hd := Outcome.ok.inj h
        subst hd
        exact ⟨collected_tensors_sorted tm, classify_sorted _,
          classify_nodup _, huniq⟩

/-- C9 witness: a concrete two-tensor table given in reverse name order comes
back sorted, with an empty classification that is trivially sorted and
duplicate-free. -/
theorem claim_C9_witness :
    List.Pairwise (fun a b => nameLeR a.1 b.1)
      ([("a".data, [2]), ("b".data, [1])] : List (List Char × List Nat))
    ∧ List.Pairwise rankLeR ([] : List ModelType)
    ∧ ([] : List ModelType).Nodup := by
  obtain ⟨h1, h2, h3, _⟩ := claim_C9_sorted_deterministic (fun _ => none)
    (Except.ok none) (Except.ok [("b".data, [1]), ("a".data, [2])])
    { raw_metadata := [], tag_frequencies := [], base_model := none,
      tensors := [("a".data, [2]), ("b".data, [1])], model_types := [] } rfl
  exact ⟨h1, h2, h3⟩

end LoraViewer
